import Mathlib

set_option autoImplicit false

namespace Tyk

/-!
Shallow embedding of the tyk gateway core, translated from the repository
sources: the RPC storage handler and JS middleware (embedded in
src/gateway_test.go), the rate/quota middleware
(src/middleware_rate_limiting.go) and the configuration loader
(src/config.go).  Components that the claims need but whose code is not
under src (the SessionLimiter engine, the store-side rolling window, and
the HMAC middleware) are modelled from the spec; each such definition says
so in its doc comment.
-/

/-! ## RPC storage handler (second file embedded in src/gateway_test.go) -/

/-- Result of one transport-level RPC call (`r.Client.Call`), as the Go
handler observes it: either a value or a Go error carrying a message. -/
inductive RPCResp (α : Type) where
  | ok (v : α)
  | err (msg : String)
deriving DecidableEq

/-- Embeds `RPCStorageHandler.IsAccessError`: an error is an access error
exactly when it is non-nil and its message is the sentinel "Access Denied". -/
def IsAccessError {α : Type} : RPCResp α → Bool
  | .ok _ => false
  | .err m => m = "Access Denied"

/-- Shorthand for the sentinel transport response. -/
def adResp {α : Type} : RPCResp α := .err "Access Denied"

/-- Embeds the retry structure of `RPCStorageHandler.GetKey` (cache path
aside, see `getKey`).  The transport is scripted as the list of responses
the successive `Call("GetKey", ...)` invocations return.  On an
"Access Denied" response the Go code calls `r.Login()` and recurses with no
guard, so the run consumes the next response; the `Nat` counts the logins
performed.  `none` means the scripted responses were exhausted while the
handler was still retrying.  A non-sentinel error makes GetKey return the
typed `KeyError{}` (modelled `Except.error ()`). -/
def getKeyRun : List (RPCResp String) → Option (Except Unit String × Nat)
  | [] => none
  | .ok v :: _ => some (Except.ok v, 0)
  | .err m :: rest =>
    if m = "Access Denied" then
      match getKeyRun rest with
      | none => none
      | some (r, n) => some (r, n + 1)
    else some (Except.error (), 0)

/-- Embeds `RPCStorageHandler.GetKey` including the read-through cache
check: when `EnableRPCCache` is set and the key is cached, the cached value
is returned with no transport call and no login. -/
def getKey (enableRPCCache : Bool) (cached : Option String)
    (resps : List (RPCResp String)) : Option (Except Unit String × Nat) :=
  match enableRPCCache, cached with
  | true, some v => some (Except.ok v, 0)
  | _, _ => getKeyRun resps

/-- Embeds the retry structure of `RPCStorageHandler.SetKey`.  The Go code
is
`_, err := Call("SetKey", ibd); if IsAccessError(err) { Login(); return SetKey(...) }; return nil`
so a non-sentinel transport error is dropped and `nil` is returned; the
returned `Option String` is the Go error (`none` = nil). -/
def setKeyRun : List (RPCResp Unit) → Option (Option String × Nat)
  | [] => none
  | .ok _ :: _ => some (none, 0)
  | .err m :: rest =>
    if m = "Access Denied" then
      match setKeyRun rest with
      | none => none
      | some (r, n) => some (r, n + 1)
    else some (none, 0)

/-- The two per-handler fields `fixKey` and `cleanKey` read: the key prefix
(`KeyPrefix` in the Go source; keys are `List Char` as Go strings are byte
strings) and the `HashKeys` flag. -/
structure RPCKeyCfg where
  keyPref : List Char
  hashKeys : Bool

/-- Embeds `RPCStorageHandler.hashKey`: return the raw key unless
`HashKeys` is set, in which case apply `doHash` (whose body is outside
src/, so it stays an explicit parameter). -/
def hashKey (cfg : RPCKeyCfg) (doHash : List Char → List Char)
    (inKey : List Char) : List Char :=
  if cfg.hashKeys then doHash inKey else inKey

/-- Embeds `RPCStorageHandler.fixKey`: `KeyPrefix + hashKey(keyName)`. -/
def fixKey (cfg : RPCKeyCfg) (doHash : List Char → List Char)
    (keyName : List Char) : List Char :=
  cfg.keyPref ++ hashKey cfg doHash keyName

/-- First index at which `pat` occurs in `s`, Go `strings.Index`. -/
def goIndexOf (pat : List Char) : List Char → Option Nat
  | [] => if pat = [] then some 0 else none
  | c :: t =>
    if pat.isPrefixOf (c :: t) then some 0
    else (goIndexOf pat t).map (fun n => n + 1)

/-- Go `strings.Replace(s, old, "", 1)`: when `old` equals the (empty)
replacement the string is returned unchanged, otherwise the first
occurrence of `old` is removed. -/
def goReplaceOnce (s old : List Char) : List Char :=
  if old = [] then s
  else
    match goIndexOf old s with
    | none => s
    | some i => s.take i ++ s.drop (i + old.length)

/-- Embeds `RPCStorageHandler.cleanKey`:
`strings.Replace(keyName, r.KeyPrefix, "", 1)`. -/
def cleanKey (cfg : RPCKeyCfg) (keyName : List Char) : List Char :=
  goReplaceOnce keyName cfg.keyPref

/-! ## Session state, rolling window and the rate/quota engine -/

/-- Embeds the `SessionState` fields the rate/quota and HMAC claims touch
(the Go struct has further opaque fields).  Go's `float64` `Rate`/`Per` and
the `int64` counters are all modelled as `Int`; every value the spec and
tests use is integral.  `HmacSecret` is a Go string, i.e. a byte string,
modelled as `List Nat`. -/
structure SessionState where
  Rate : Int
  Per : Int
  Allowance : Int
  LastCheck : Int
  Expires : Int
  QuotaMax : Int
  QuotaRemaining : Int
  QuotaRenewalRate : Int
  QuotaRenews : Int
  HMACEnabled : Bool
  HmacSecret : List Nat
deriving DecidableEq

/-- Modelled from the spec: `SetRollingWindow(k, per_seconds, now_ns)` of
the Storage Contract (spec 4.A), whose implementation is not under src/.
The window is the sorted-set of request timestamps for one key: (1) drop
members with score `< now − per·1e9`, (2) add `now_ns`, (3) return the new
cardinality. -/
def setRollingWindow (window : List Int) (per : Int) (nowNs : Int) :
    List Int × Nat :=
  let pruned := window.filter (fun t => decide (nowNs - per * 1000000000 ≤ t))
  let w := pruned ++ [nowNs]
  (w, w.length)

/-- Modelled from the spec: the quota half of
`SessionLimiter.ForwardMessage` (spec 4.E), whose source is not under
src/.  Skip when `QuotaMax < 0`; refill when `now ≥ QuotaRenews`; fail with
reason 2 when the remaining quota is `≤ 0`; otherwise decrement.  Returns
(forward, reason, mutated session). -/
def quotaStep (sess : SessionState) (nowS : Int) :
    Bool × Nat × SessionState :=
  if sess.QuotaMax < 0 then (true, 0, sess)
  else
    let s1 :=
      if sess.QuotaRenews ≤ nowS then
        { sess with QuotaRemaining := sess.QuotaMax,
                    QuotaRenews := nowS + sess.QuotaRenewalRate }
      else sess
    if s1.QuotaRemaining ≤ 0 then (false, 2, s1)
    else (true, 0, { s1 with QuotaRemaining := s1.QuotaRemaining - 1 })

/-- Modelled from the spec: `SessionLimiter.ForwardMessage` (spec 4.E),
whose source is not under src/.  Rate first (skipped when
`Rate ≤ 0 ∨ Per ≤ 0`; fail with reason 1 when the post-insert window
cardinality exceeds `Rate`, with no session bookkeeping), then quota.
Returns (forward, reason, mutated session, new window). -/
def ForwardMessage (sess : SessionState) (window : List Int)
    (nowS nowNs : Int) : Bool × Nat × SessionState × List Int :=
  if sess.Rate ≤ 0 ∨ sess.Per ≤ 0 then
    let (f, r, s') := quotaStep sess nowS
    (f, r, s', window)
  else
    let (w', count) := setRollingWindow window sess.Per nowNs
    if sess.Rate < (count : Int) then (false, 1, sess, w')
    else
      let (f, r, s') := quotaStep sess nowS
      (f, r, s', w')

/-- Observable outcome of `RateLimitAndQuotaCheck.ProcessRequest`:
the returned (error message, status), the session handed to
`SessionManager.UpdateSession`, whether that call was issued (synchronously
or dispatched with `go`), the request-context `SessionData` after the call
(set synchronously only when async writes are off), and the rolling
window after the store call. -/
structure PRResult where
  errMsg : Option String
  status : Nat
  stored : SessionState
  updateCalled : Bool
  ctxSession : Option SessionState
  window : List Int
deriving DecidableEq

/-- Embeds `RateLimitAndQuotaCheck.ProcessRequest`
(src/middleware_rate_limiting.go): run `ForwardMessage`, persist the
mutated session through `UpdateSession` (and in sync mode replace the
context `SessionData`) before the decision is inspected, then map
reason 1 to `("Rate limit exceeded", 429)`, reason 2 to
`("Quota exceeded", 403)`, any other denial to `("Access denied", 403)`,
and success to `(nil, 200)`. -/
def processRequest (useAsync : Bool) (sess : SessionState)
    (window : List Int) (nowS nowNs : Int) : PRResult :=
  let (fwd, reason, s', w') := ForwardMessage sess window nowS nowNs
  let ctx : Option SessionState := if useAsync then none else some s'
  if fwd then ⟨none, 200, s', true, ctx, w'⟩
  else if reason = 1 then ⟨some "Rate limit exceeded", 429, s', true, ctx, w'⟩
  else if reason = 2 then ⟨some "Quota exceeded", 403, s', true, ctx, w'⟩
  else ⟨some "Access denied", 403, s', true, ctx, w'⟩

/-- Sequential requests through the middleware at the given times (epoch
seconds); each request reads back the session the previous one persisted,
as the auth middleware reloads it from the store.  Returns the
(status, error message) pairs. -/
def runRequests (useAsync : Bool) :
    SessionState → List Int → List Int → List (Nat × Option String)
  | _, _, [] => []
  | sess, window, t :: ts =>
    let r := processRequest useAsync sess window t (t * 1000000000)
    (r.status, r.errMsg) :: runRequests useAsync r.stored r.window ts

/-- The session of `createThrottledSession` in src/gateway_test.go:
`Rate=3, Per=60, QuotaMax=10, QuotaRemaining=10, QuotaRenewalRate=300`,
`QuotaRenews = now`, taking `now = 0`. -/
def throttledSession : SessionState :=
  { Rate := 3, Per := 60, Allowance := 3, LastCheck := 0, Expires := 0,
    QuotaMax := 10, QuotaRemaining := 10, QuotaRenewalRate := 300,
    QuotaRenews := 0, HMACEnabled := false, HmacSecret := [] }

/-- The session of `createQuotaSession` in src/gateway_test.go:
`Rate=8, Per=1, QuotaMax=2, QuotaRemaining=2, QuotaRenewalRate=300`,
`QuotaRenews = now + 20`, taking `now = 0`. -/
def quotaSession : SessionState :=
  { Rate := 8, Per := 1, Allowance := 8, LastCheck := 0, Expires := 0,
    QuotaMax := 2, QuotaRemaining := 2, QuotaRenewalRate := 300,
    QuotaRenews := 20, HMACEnabled := false, HmacSecret := [] }

/-! ## Configuration loader (src/config.go) -/

/-- Embeds the `Config` fields that `WriteDefaultConf` touches plus the
flags the claims name (the Go struct's nested `Storage`, `HealthCheck` and
`AnalyticsConfig` records are flattened here). -/
structure Config where
  ListenPort : Int
  Secret : String
  TemplatePath : String
  TykJSPath : String
  MiddlewarePath : String
  StorageType : String
  StorageHost : String
  StorageUsername : String
  StoragePassword : String
  StorageDatabase : Int
  StorageMaxIdle : Int
  StoragePort : Int
  AppPath : String
  EnableAnalytics : Bool
  EnableHealthChecks : Bool
  HealthCheckValueTimeout : Int
  AnalyticsCSVDir : String
  AnalyticsType : String
  UseAsyncSessionWrite : Bool
  HashKeys : Bool
deriving DecidableEq

/-- Embeds the field assignments of `WriteDefaultConf` (src/config.go
lines 112-131); fields the Go function does not assign keep their value. -/
def writeDefaultConfStruct (c : Config) : Config :=
  { c with
    ListenPort := 8080,
    Secret := "352d20ee67be67f6340b4c0605b044b7",
    TemplatePath := "./templates",
    TykJSPath := "./js/tyk.js",
    MiddlewarePath := "./middleware",
    StorageType := "redis",
    AppPath := "./apps/",
    StorageHost := "localhost",
    StorageUsername := "",
    StoragePassword := "",
    StorageDatabase := 0,
    StorageMaxIdle := 100,
    StoragePort := 6379,
    EnableAnalytics := false,
    EnableHealthChecks := true,
    HealthCheckValueTimeout := 60,
    AnalyticsCSVDir := "/tmp",
    AnalyticsType := "csv",
    UseAsyncSessionWrite := false }

/-- The filesystem, a map from path to the decoded configuration stored in
the file (`json.Marshal` followed by `json.Unmarshal` is taken as the
identity on well-formed configs). -/
def FSt : Type := String → Option Config

/-- Write a file: `ioutil.WriteFile` at path `p`. -/
def fsWrite (fs : FSt) (p : String) (c : Config) : FSt :=
  fun q => if q = p then some c else fs q

/-- Embeds `WriteDefaultConf` (src/config.go): mutate the struct to the
defaults and write it to the literal path "tyk.conf". -/
def writeDefaultConf (fs : FSt) (c : Config) : FSt × Config :=
  let c' := writeDefaultConfStruct c
  (fsWrite fs "tyk.conf" c', c')

/-- Embeds `loadConfig` (src/config.go): read `filePath`; on failure write
the defaults via `WriteDefaultConf` and recurse on the literal path
"tyk.conf".  The Go recursion has no termination guard (it loops forever
when the write cannot be re-read), so the embedding carries fuel; running
out of fuel leaves the state unchanged. -/
def loadConfig : Nat → String → FSt → Config → FSt × Config
  | 0, _, fs, c => (fs, c)
  | fuel + 1, p, fs, c =>
    match fs p with
    | some content => (fs, content)
    | none =>
      let (fs', c') := writeDefaultConf fs c
      loadConfig fuel "tyk.conf" fs' c'

/-- A configuration with no field set, the zero value `Config{}` the Go
binary starts from. -/
def zeroConfig : Config :=
  { ListenPort := 0, Secret := "", TemplatePath := "", TykJSPath := "",
    MiddlewarePath := "", StorageType := "", StorageHost := "",
    StorageUsername := "", StoragePassword := "", StorageDatabase := 0,
    StorageMaxIdle := 0, StoragePort := 0, AppPath := "",
    EnableAnalytics := false, EnableHealthChecks := false,
    HealthCheckValueTimeout := 0, AnalyticsCSVDir := "",
    AnalyticsType := "", UseAsyncSessionWrite := false, HashKeys := false }

/-- The empty filesystem. -/
def emptyFS : FSt := fun _ => none

/-! ## Byte strings, URL query escaping and base64

The HMAC data path works on Go strings, which are byte strings; bytes are
`Nat`s with the validity predicate `bytesValid` (every byte `< 256`). -/

/-- Every element of the list is a byte. -/
def bytesValid (l : List Nat) : Prop := ∀ b ∈ l, b < 256

instance (l : List Nat) : Decidable (bytesValid l) :=
  List.decidableBAll _ l

/-- Bytes of an ASCII Lean string literal. -/
def strBytes (s : String) : List Nat := s.toList.map Char.toNat

/-- Byte kept verbatim by Go `url.QueryEscape`: alphanumeric or one of
`-`, `_`, `.`, `~`. -/
def isUnreservedByte (b : Nat) : Bool :=
  decide ((65 ≤ b ∧ b ≤ 90) ∨ (97 ≤ b ∧ b ≤ 122) ∨ (48 ≤ b ∧ b ≤ 57) ∨
    b = 45 ∨ b = 95 ∨ b = 46 ∨ b = 126)

/-- Uppercase hexadecimal digit of a value below 16, as a byte. -/
def hexDigit (n : Nat) : Nat := if n < 10 then 48 + n else 55 + n

/-- Go `url.QueryEscape` on one byte: unreserved bytes stay, space becomes
`+` (byte 43), everything else becomes `%XY` with uppercase hex. -/
def escByte (b : Nat) : List Nat :=
  if isUnreservedByte b then [b]
  else if b = 32 then [43]
  else [37, hexDigit (b / 16 % 16), hexDigit (b % 16)]

/-- Modelled from the spec: Go `url.QueryEscape` (library code outside this
repository), byte for byte. -/
def urlQueryEscape (s : List Nat) : List Nat := (s.map escByte).flatten

/-- Value of a hex-digit byte produced by `hexDigit`. -/
def hexVal (b : Nat) : Nat := if b ≤ 57 then b - 48 else b - 55

/-- Left inverse of `urlQueryEscape`, used to prove it injective on byte
strings: `%XY` decodes through `hexVal`, `+` decodes to space, anything
else is itself. -/
def urlQueryUnescape : List Nat → List Nat
  | [] => []
  | b :: rest =>
    if b = 37 then
      (hexVal (rest.headD 0) * 16 + hexVal (rest.tail.headD 0)) ::
        urlQueryUnescape rest.tail.tail
    else if b = 43 then 32 :: urlQueryUnescape rest
    else b :: urlQueryUnescape rest
  termination_by l => l.length
  decreasing_by
    all_goals simp only [List.length_tail, List.length_cons]
    all_goals omega

/-- Byte of the character at index `n` of the standard base64 alphabet. -/
def b64Char (n : Nat) : Nat :=
  if n < 26 then 65 + n
  else if n < 52 then 97 + (n - 26)
  else if n < 62 then 48 + (n - 52)
  else if n = 62 then 43
  else 47

/-- Modelled from the spec: Go `base64.StdEncoding.EncodeToString`
(library code outside this repository): groups of three bytes become four
alphabet bytes, a two-byte tail becomes three plus `=` (byte 61), a
one-byte tail two plus `==`. -/
def base64Encode : List Nat → List Nat
  | b1 :: b2 :: b3 :: rest =>
    let n := b1 * 65536 + b2 * 256 + b3
    b64Char (n / 262144 % 64) :: b64Char (n / 4096 % 64) ::
      b64Char (n / 64 % 64) :: b64Char (n % 64) :: base64Encode rest
  | [b1, b2] =>
    let n := b1 * 1024 + b2 * 4
    [b64Char (n / 4096 % 64), b64Char (n / 64 % 64), b64Char (n % 64), 61]
  | [b1] =>
    let n := b1 * 16
    [b64Char (n / 64 % 64), b64Char (n % 64), 61, 61]
  | [] => []

/-- Index of an alphabet byte produced by `b64Char`. -/
def b64Val (c : Nat) : Nat :=
  if 65 ≤ c ∧ c ≤ 90 then c - 65
  else if 97 ≤ c ∧ c ≤ 122 then c - 71
  else if 48 ≤ c ∧ c ≤ 57 then c + 4
  else if c = 43 then 62
  else 63

/-- Left inverse of `base64Encode`, used to prove it injective on byte
strings. -/
def base64Decode : List Nat → List Nat
  | c1 :: c2 :: c3 :: c4 :: rest =>
    if c3 = 61 then [b64Val c1 * 4 + b64Val c2 / 16]
    else if c4 = 61 then
      let n := b64Val c1 * 4096 + b64Val c2 * 64 + b64Val c3
      [n / 1024, n / 4 % 256]
    else
      let n := b64Val c1 * 262144 + b64Val c2 * 4096 +
        b64Val c3 * 64 + b64Val c4
      n / 65536 :: n / 256 % 256 :: n % 256 :: base64Decode rest
  | _ => []

/-! ## HMAC signed-request middleware -/

/-- The fields the auth header of shape
`Signature keyId="..",algorithm="..",signature=".."` may carry; a missing
field is `none`. -/
structure HMACAuthFields where
  keyId : Option (List Nat)
  algorithm : Option (List Nat)
  signature : Option (List Nat)
deriving DecidableEq

/-- An inbound request as the HMAC middleware sees it: the parsed
Authorization header (or `none` when absent) and the raw `Date` header. -/
structure HMACRequest where
  auth : Option HMACAuthFields
  dateHeader : List Nat
deriving DecidableEq

/-- Outcome of the HMAC middleware: attach the session and proceed, or
fail with a message and an HTTP status. -/
inductive HMACOutcome where
  | success (sess : SessionState)
  | failure (msg : String) (code : Nat)
deriving DecidableEq

/-- Modelled from the spec: the signing string when the `headers` field of
the auth header is absent (spec 4.G step 4) is exactly
`"date:" + urlQueryEscape(<Date header>)`. -/
def signingStringDateOnly (d : List Nat) : List Nat :=
  strBytes "date:" ++ urlQueryEscape d

/-- Modelled from the spec (4.G step 6): the signature the gateway expects,
`urlQueryEscape(base64(HMAC-SHA1(signing string, secret)))`; the HMAC-SHA1
primitive (Go crypto/hmac + crypto/sha1, outside this repository) is the
parameter `mac`. -/
def hmacExpectedSig (mac : List Nat → List Nat → List Nat)
    (secret msg : List Nat) : List Nat :=
  urlQueryEscape (base64Encode (mac secret msg))

/-- Modelled from the spec: `HMACMiddleware.ProcessRequest` (spec 4.G,
validation steps 1-7; the middleware source is not under src/, only its
tests).  `sessions` is the session store lookup, `parseDate` the RFC1123
parser (library code, abstracted) yielding epoch milliseconds, `nowMs` the
gateway clock and `skewMs` the spec's `HMACAllowedClockSkew`. -/
def hmacProcessRequest (mac : List Nat → List Nat → List Nat)
    (sessions : List Nat → Option SessionState)
    (parseDate : List Nat → Option Int)
    (nowMs skewMs : Int) (req : HMACRequest) : HMACOutcome :=
  match req.auth with
  | none => .failure "Authorization field missing" 400
  | some f =>
    match f.keyId, f.algorithm, f.signature with
    | some kid, some alg, some sig =>
      if alg ≠ strBytes "hmac-sha1" then .failure "Header malformed" 400
      else
        match sessions kid with
        | none => .failure "Key not found" 400
        | some sess =>
          if sess.HMACEnabled = false then .failure "Key not found" 400
          else
            match parseDate req.dateHeader with
            | none => .failure "Date malformed" 400
            | some dMs =>
              if skewMs < |nowMs - dMs| then
                .failure "Date skew too large" 400
              else
                if sig = hmacExpectedSig mac sess.HmacSecret
                    (signingStringDateOnly req.dateHeader) then
                  .success sess
                else .failure "Signature invalid" 400
    | _, _, _ => .failure "Header malformed" 400

/-- A concrete collision-free MAC used to instantiate the abstracted
HMAC-SHA1 primitive in witnesses: the two inputs are escaped (an injective
byte encoding) and joined on byte 10, which escaping never emits. -/
def macW (s m : List Nat) : List Nat :=
  urlQueryEscape s ++ 10 :: urlQueryEscape m

/-- The session of `createHMACAuthSession` in
src/middleware_check_HMAC_test.go: `HMACEnabled` with secret
"9879879878787878", `QuotaMax = -1`, `Rate=8, Per=1`. -/
def hmacSession : SessionState :=
  { Rate := 8, Per := 1, Allowance := 8, LastCheck := 0, Expires := 0,
    QuotaMax := -1, QuotaRemaining := 1, QuotaRenewalRate := 300,
    QuotaRenews := 20, HMACEnabled := true,
    HmacSecret := strBytes "9879879878787878" }

/-- A session store holding `hmacSession` under key "9876", as the HMAC
tests install it. -/
def sessW : List Nat → Option SessionState :=
  fun k => if k = strBytes "9876" then some hmacSession else none

/-- A date parser for witnesses: every date reads as epoch 0 ms. -/
def pdW : List Nat → Option Int := fun _ => some 0

/-- The reference date header of the HMAC tests. -/
def dW : List Nat := strBytes "Mon, 02 Jan 2006 15:04:05 MST"

/-! ## Theorems -/

theorem urlQueryEscape_cons (b : Nat) (s : List Nat) :
    urlQueryEscape (b :: s) = escByte b ++ urlQueryEscape s := by
  simp [urlQueryEscape]

theorem isUnreservedByte_facts (b : Nat) (h : isUnreservedByte b = true) :
    b < 256 ∧ b ≠ 37 ∧ b ≠ 43 ∧ b ≠ 10 ∧ b ≠ 32 := by
  simp only [isUnreservedByte, decide_eq_true_eq] at h
  omega

theorem hexDigit_facts (n : Nat) (h : n < 16) :
    hexDigit n < 256 ∧ hexDigit n ≠ 37 ∧ hexDigit n ≠ 43 ∧ hexDigit n ≠ 10 := by
  unfold hexDigit
  split_ifs <;> omega

theorem hexVal_hexDigit : ∀ n, n < 16 → hexVal (hexDigit n) = n := by decide

theorem escByte_valid (b : Nat) : ∀ x ∈ escByte b, x < 256 := by
  intro x hx
  unfold escByte at hx
  by_cases hu : isUnreservedByte b = true
  · rw [if_pos hu, List.mem_singleton] at hx
    subst hx
    exact (isUnreservedByte_facts _ hu).1
  · rw [if_neg hu] at hx
    by_cases h32 : b = 32
    · rw [if_pos h32, List.mem_singleton] at hx
      omega
    · rw [if_neg h32] at hx
      have h1 : b / 16 % 16 < 16 := Nat.mod_lt _ (by norm_num)
      have h2 : b % 16 < 16 := Nat.mod_lt _ (by norm_num)
      rcases List.mem_cons.mp hx with h | hx2
      · omega
      rcases List.mem_cons.mp hx2 with h | hx3
      · subst h
        exact (hexDigit_facts _ h1).1
      rcases List.mem_cons.mp hx3 with h | hx4
      · subst h
        exact (hexDigit_facts _ h2).1
      · simp at hx4

theorem urlQueryEscape_valid (s : List Nat) : bytesValid (urlQueryEscape s) := by
  induction s with
  | nil =>
    intro x hx
    simp [urlQueryEscape] at hx
  | cons b t ih =>
    intro x hx
    rw [urlQueryEscape_cons] at hx
    rcases List.mem_append.mp hx with h | h
    · exact escByte_valid b x h
    · exact ih x h

theorem ten_not_mem_escByte (b : Nat) : 10 ∉ escByte b := by
  intro hx
  unfold escByte at hx
  by_cases hu : isUnreservedByte b = true
  · rw [if_pos hu, List.mem_singleton] at hx
    exact (isUnreservedByte_facts b hu).2.2.2.1 hx.symm
  · rw [if_neg hu] at hx
    by_cases h32 : b = 32
    · rw [if_pos h32, List.mem_singleton] at hx
      omega
    · rw [if_neg h32] at hx
      have h1 : b / 16 % 16 < 16 := Nat.mod_lt _ (by norm_num)
      have h2 : b % 16 < 16 := Nat.mod_lt _ (by norm_num)
      rcases List.mem_cons.mp hx with h | hx2
      · omega
      rcases List.mem_cons.mp hx2 with h | hx3
      · exact (hexDigit_facts _ h1).2.2.2 h.symm
      rcases List.mem_cons.mp hx3 with h | hx4
      · exact (hexDigit_facts _ h2).2.2.2 h.symm
      · simp at hx4

theorem ten_not_mem_urlQueryEscape (s : List Nat) : 10 ∉ urlQueryEscape s := by
  induction s with
  | nil =>
    intro hx
    simp [urlQueryEscape] at hx
  | cons b t ih =>
    intro hx
    rw [urlQueryEscape_cons] at hx
    rcases List.mem_append.mp hx with h | h
    · exact ten_not_mem_escByte b h
    · exact ih h

theorem urlQueryUnescape_other (b : Nat) (rest : List Nat) (h37 : b ≠ 37)
    (h43 : b ≠ 43) :
    urlQueryUnescape (b :: rest) = b :: urlQueryUnescape rest := by
  rw [urlQueryUnescape, if_neg h37, if_neg h43]

theorem urlQueryUnescape_plus (rest : List Nat) :
    urlQueryUnescape (43 :: rest) = 32 :: urlQueryUnescape rest := by
  rw [urlQueryUnescape, if_neg (by norm_num : (43 : Nat) ≠ 37), if_pos rfl]

theorem urlQueryUnescape_pct (h l : Nat) (rest : List Nat) :
    urlQueryUnescape (37 :: h :: l :: rest) =
      (hexVal h * 16 + hexVal l) :: urlQueryUnescape rest := by
  rw [urlQueryUnescape, if_pos rfl]
  simp

theorem unescape_escape : ∀ s : List Nat, bytesValid s →
    urlQueryUnescape (urlQueryEscape s) = s := by
  intro s
  induction s with
  | nil =>
    intro _
    simp [urlQueryEscape, urlQueryUnescape]
  | cons b t ih =>
    intro hs
    have hb : b < 256 := hs b (List.mem_cons_self b t)
    have ht : bytesValid t := fun x hx => hs x (List.mem_cons_of_mem b hx)
    rw [urlQueryEscape_cons]
    by_cases hu : isUnreservedByte b = true
    · obtain ⟨-, h37, h43, -, -⟩ := isUnreservedByte_facts b hu
      rw [escByte, if_pos hu, List.singleton_append,
        urlQueryUnescape_other b _ h37 h43, ih ht]
    · by_cases h32 : b = 32
      · subst h32
        rw [escByte, if_neg hu, if_pos rfl, List.singleton_append,
          urlQueryUnescape_plus, ih ht]
      · have h1 : b / 16 % 16 < 16 := Nat.mod_lt _ (by norm_num)
        have h2 : b % 16 < 16 := Nat.mod_lt _ (by norm_num)
        rw [escByte, if_neg hu, if_neg h32]
        show urlQueryUnescape (37 :: hexDigit (b / 16 % 16) ::
          hexDigit (b % 16) :: urlQueryEscape t) = b :: t
        rw [urlQueryUnescape_pct, hexVal_hexDigit _ h1, hexVal_hexDigit _ h2,
          ih ht]
        have : b / 16 % 16 * 16 + b % 16 = b := by omega
        rw [this]

theorem urlQueryEscape_inj {s t : List Nat} (hs : bytesValid s)
    (ht : bytesValid t) (h : urlQueryEscape s = urlQueryEscape t) : s = t := by
  rw [← unescape_escape s hs, ← unescape_escape t ht, h]

theorem urlQueryEscape_cons_ne (b : Nat) (s : List Nat) :
    urlQueryEscape (b :: s) ≠ [] := by
  rw [urlQueryEscape_cons]
  unfold escByte
  split_ifs <;> simp

theorem b64Char_lt (n : Nat) : b64Char n < 256 := by
  unfold b64Char
  split_ifs <;> omega

theorem b64Char_ne_61 : ∀ n, n < 64 → b64Char n ≠ 61 := by decide

theorem b64Val_b64Char : ∀ n, n < 64 → b64Val (b64Char n) = n := by decide

theorem base64Encode_valid : ∀ s : List Nat, bytesValid (base64Encode s)
  | [] => by
    intro x hx
    simp [base64Encode] at hx
  | [b1] => by
    intro x hx
    simp only [base64Encode, List.mem_cons, List.not_mem_nil, or_false] at hx
    rcases hx with h | h | h | h <;> subst h
    · exact b64Char_lt _
    · exact b64Char_lt _
    · omega
    · omega
  | [b1, b2] => by
    intro x hx
    simp only [base64Encode, List.mem_cons, List.not_mem_nil, or_false] at hx
    rcases hx with h | h | h | h <;> subst h
    · exact b64Char_lt _
    · exact b64Char_lt _
    · exact b64Char_lt _
    · omega
  | b1 :: b2 :: b3 :: rest => by
    intro x hx
    simp only [base64Encode, List.mem_cons] at hx
    rcases hx with h | h | h | h | h
    · subst h
      exact b64Char_lt _
    · subst h
      exact b64Char_lt _
    · subst h
      exact b64Char_lt _
    · subst h
      exact b64Char_lt _
    · exact base64Encode_valid rest x h

theorem base64_decode_encode : ∀ s : List Nat, bytesValid s →
    base64Decode (base64Encode s) = s
  | [], _ => rfl
  | [b1], hs => by
    have hb1 : b1 < 256 := hs b1 (by simp)
    simp only [base64Encode, base64Decode]
    rw [if_true,
      b64Val_b64Char _ (Nat.mod_lt _ (by norm_num)),
      b64Val_b64Char _ (Nat.mod_lt _ (by norm_num))]
    have : b1 * 16 / 64 % 64 * 4 + b1 * 16 % 64 / 16 = b1 := by omega
    rw [this]
  | [b1, b2], hs => by
    have hb1 : b1 < 256 := hs b1 (by simp)
    have hb2 : b2 < 256 := hs b2 (by simp)
    have hne3 : b64Char ((b1 * 1024 + b2 * 4) % 64) ≠ 61 :=
      b64Char_ne_61 _ (Nat.mod_lt _ (by norm_num))
    simp only [base64Encode, base64Decode]
    rw [if_neg hne3, if_true,
      b64Val_b64Char _ (Nat.mod_lt _ (by norm_num)),
      b64Val_b64Char _ (Nat.mod_lt _ (by norm_num)),
      b64Val_b64Char _ (Nat.mod_lt _ (by norm_num))]
    have e1 : (b1 * 1024 + b2 * 4) / 4096 % 64 * 4096 +
        (b1 * 1024 + b2 * 4) / 64 % 64 * 64 +
        (b1 * 1024 + b2 * 4) % 64 = b1 * 1024 + b2 * 4 := by omega
    rw [e1]
    have e2 : (b1 * 1024 + b2 * 4) / 1024 = b1 := by omega
    have e3 : (b1 * 1024 + b2 * 4) / 4 % 256 = b2 := by omega
    rw [e2, e3]
  | b1 :: b2 :: b3 :: rest, hs => by
    have hb1 : b1 < 256 := hs b1 (by simp)
    have hb2 : b2 < 256 := hs b2 (by simp)
    have hb3 : b3 < 256 := hs b3 (by simp)
    have hrest : bytesValid rest := fun x hx => hs x (by simp [hx])
    have hih := base64_decode_encode rest hrest
    have hne3 : b64Char ((b1 * 65536 + b2 * 256 + b3) / 64 % 64) ≠ 61 :=
      b64Char_ne_61 _ (Nat.mod_lt _ (by norm_num))
    have hne4 : b64Char ((b1 * 65536 + b2 * 256 + b3) % 64) ≠ 61 :=
      b64Char_ne_61 _ (Nat.mod_lt _ (by norm_num))
    simp only [base64Encode, base64Decode]
    rw [if_neg hne3, if_neg hne4,
      b64Val_b64Char _ (Nat.mod_lt _ (by norm_num)),
      b64Val_b64Char _ (Nat.mod_lt _ (by norm_num)),
      b64Val_b64Char _ (Nat.mod_lt _ (by norm_num)),
      b64Val_b64Char _ (Nat.mod_lt _ (by norm_num)), hih]
    simp only [List.cons.injEq, and_true]
    refine ⟨?_, ?_, ?_⟩ <;> omega

theorem base64Encode_inj {s t : List Nat} (hs : bytesValid s)
    (ht : bytesValid t) (h : base64Encode s = base64Encode t) : s = t := by
  rw [← base64_decode_encode s hs, ← base64_decode_encode t ht, h]

theorem goIndexOf_self_append (p h : List Char) : goIndexOf p (p ++ h) = some 0 := by
  cases hp : p ++ h with
  | nil =>
    have hpn : p = [] := by
      cases p with
      | nil => rfl
      | cons a t => simp at hp
    simp [goIndexOf, hpn] at hp ⊢
  | cons c t =>
    have hpre : p.isPrefixOf (c :: t) = true := by
      rw [List.isPrefixOf_iff_prefix, ← hp]
      exact List.prefix_append p h
    simp [goIndexOf, hpre]

theorem cleanKey_fixKey (cfg : RPCKeyCfg) (doHash : List Char → List Char)
    (k : List Char) :
    cleanKey cfg (fixKey cfg doHash k) = hashKey cfg doHash k := by
  unfold cleanKey fixKey goReplaceOnce
  by_cases hp : cfg.keyPref = []
  · simp [hp]
  · rw [if_neg hp, goIndexOf_self_append]
    simp [List.drop_left]

/-- C10: for every key prefix and every hash function, `cleanKey` undoes
`fixKey` up to hashing: `cleanKey (fixKey k) = hashKey k`; and with
`HashKeys` off, `fixKey` is exactly prefixing and the composite is the
identity on key names. -/
theorem rpc_fixKey_cleanKey_roundtrip (cfg : RPCKeyCfg)
    (doHash : List Char → List Char) (k : List Char) :
    cleanKey cfg (fixKey cfg doHash k) = hashKey cfg doHash k ∧
    (cfg.hashKeys = false →
      fixKey cfg doHash k = cfg.keyPref ++ k ∧
      cleanKey cfg (fixKey cfg doHash k) = k) := by
  refine ⟨cleanKey_fixKey cfg doHash k, fun hf => ?_⟩
  have h1 : hashKey cfg doHash k = k := by simp [hashKey, hf]
  exact ⟨by simp [fixKey, h1], by rw [cleanKey_fixKey, h1]⟩

theorem rpc_fixKey_cleanKey_roundtrip_witness :
    cleanKey ⟨"apikey-".toList, false⟩
      (fixKey ⟨"apikey-".toList, false⟩ id "k1".toList) = "k1".toList :=
  ((rpc_fixKey_cleanKey_roundtrip ⟨"apikey-".toList, false⟩ id "k1".toList).2 rfl).2

/-- C1 counterexample: with the transport answering "Access Denied" twice
and then a value, `GetKey` performs two logins and returns the value — the
second Access Denied neither surfaces nor stops the retries; and after two
Access Denied responses alone the handler is still retrying (it demands a
third transport call) instead of surfacing the error. -/
theorem rpc_getKey_two_access_denied_retries :
    getKeyRun [adResp, adResp, RPCResp.ok "v"] = some (Except.ok "v", 2) ∧
    getKeyRun [adResp, adResp] = none := by
  exact ⟨rfl, rfl⟩

/-- C1 (amended): on an "Access Denied" response the RPC handler re-logins
and retries with NO bound: `n` leading Access Denied responses cause `n`
logins, the outcome is that of the first non-sentinel response, and an
Access Denied error never surfaces to the caller — with only Access Denied
responses the handler keeps retrying.  The same holds for `SetKey`. -/
theorem rpc_access_denied_retry_unbounded :
    (∀ (n : Nat) (v : String) (rest : List (RPCResp String)),
      getKeyRun (List.replicate n adResp ++ RPCResp.ok v :: rest) =
        some (Except.ok v, n)) ∧
    (∀ (n : Nat) (m : String) (rest : List (RPCResp String)),
      m ≠ "Access Denied" →
      getKeyRun (List.replicate n adResp ++ RPCResp.err m :: rest) =
        some (Except.error (), n)) ∧
    (∀ n : Nat, getKeyRun (List.replicate n (adResp : RPCResp String)) = none) ∧
    (∀ (n : Nat) (rest : List (RPCResp Unit)),
      setKeyRun (List.replicate n adResp ++ RPCResp.ok () :: rest) =
        some (none, n)) ∧
    (∀ n : Nat, setKeyRun (List.replicate n (adResp : RPCResp Unit)) = none) := by
  refine ⟨?_, ?_, ?_, ?_, ?_⟩
  · intro n v rest
    induction n with
    | zero => rfl
    | succ k ih =>
      simp only [adResp] at ih
      simp [adResp, getKeyRun, ih]
  · intro n m rest hm
    induction n with
    | zero => simp [getKeyRun, hm]
    | succ k ih =>
      simp only [adResp] at ih
      simp [adResp, getKeyRun, ih]
  · intro n
    induction n with
    | zero => rfl
    | succ k ih =>
      simp only [adResp] at ih
      simp [adResp, getKeyRun, ih]
  · intro n rest
    induction n with
    | zero => rfl
    | succ k ih =>
      simp only [adResp] at ih
      simp [adResp, setKeyRun, ih]
  · intro n
    induction n with
    | zero => rfl
    | succ k ih =>
      simp only [adResp] at ih
      simp [adResp, setKeyRun, ih]

theorem rpc_access_denied_retry_unbounded_witness :
    getKeyRun [adResp, RPCResp.err "boom"] = some (Except.error (), 1) := by
  have h := rpc_access_denied_retry_unbounded.2.1 1 "boom" [] (by decide)
  simpa using h

/-- C7: `SetKey` does NOT surface a non-sentinel transport error: when the
transport call fails with "connection failed", `SetKey` performs no login
and returns the nil error, reporting success. -/
theorem rpc_setKey_swallows_transport_error :
    setKeyRun [RPCResp.err "connection failed"] = some (none, 0) := rfl

/-- C8 counterexample: loading a missing configuration at the path
"./custom.conf" leaves that path absent and writes the defaults to the
fixed path "tyk.conf" instead — the defaults file is not written to the
path the loader was given. -/
theorem loadConfig_writes_fixed_path_counterexample :
    (loadConfig 2 "./custom.conf" emptyFS zeroConfig).1 "./custom.conf" = none ∧
    (loadConfig 2 "./custom.conf" emptyFS zeroConfig).1 "tyk.conf" =
      some (writeDefaultConfStruct zeroConfig) := by
  exact ⟨rfl, rfl⟩

/-- C8 (amended): when the file at `p` cannot be read, the defaults file is
written to the fixed path "tyk.conf" — not to `p` — and re-read from
there, so that after loading the in-memory configuration equals the
defaults: ListenPort 8080, storage type "redis", health checks enabled,
UseAsyncSessionWrite false. -/
theorem loadConfig_missing_file_defaults (n : Nat) (p : String) (fs : FSt)
    (c : Config) (hp : fs p = none) :
    loadConfig (n + 2) p fs c =
      (fsWrite fs "tyk.conf" (writeDefaultConfStruct c),
        writeDefaultConfStruct c) ∧
    (loadConfig (n + 2) p fs c).2.ListenPort = 8080 ∧
    (loadConfig (n + 2) p fs c).2.StorageType = "redis" ∧
    (loadConfig (n + 2) p fs c).2.EnableHealthChecks = true ∧
    (loadConfig (n + 2) p fs c).2.UseAsyncSessionWrite = false := by
  have hstep : ∀ (fuel : Nat) (q : String) (g : FSt) (cc : Config),
      loadConfig (fuel + 1) q g cc =
        match g q with
        | some content => (g, content)
        | none =>
          loadConfig fuel "tyk.conf"
            (fsWrite g "tyk.conf" (writeDefaultConfStruct cc))
            (writeDefaultConfStruct cc) := by
    intro fuel q g cc
    rfl
  have hmain : loadConfig (n + 2) p fs c =
      (fsWrite fs "tyk.conf" (writeDefaultConfStruct c),
        writeDefaultConfStruct c) := by
    rw [hstep, hp, hstep]
    simp [fsWrite]
  refine ⟨hmain, ?_, ?_, ?_, ?_⟩ <;> rw [hmain] <;> rfl

theorem loadConfig_missing_file_defaults_witness :
    (loadConfig 2 "./elsewhere.conf" emptyFS zeroConfig).2.ListenPort = 8080 ∧
    (loadConfig 2 "./elsewhere.conf" emptyFS zeroConfig).2.StorageType = "redis" :=
  ⟨(loadConfig_missing_file_defaults 0 "./elsewhere.conf" emptyFS zeroConfig rfl).2.1,
   (loadConfig_missing_file_defaults 0 "./elsewhere.conf" emptyFS zeroConfig rfl).2.2.1⟩

/-- C9: `RateLimitAndQuotaCheck.ProcessRequest` hands the limiter-mutated
session to `SessionManager.UpdateSession` before the admission decision is
inspected: the update is issued and stores exactly `ForwardMessage`'s
mutated session for every outcome — including 429 and 403 denials — and
in synchronous mode the request context's `SessionData` is replaced with
that same session. -/
theorem processRequest_persists_session (useAsync : Bool)
    (sess : SessionState) (window : List Int) (nowS nowNs : Int) :
    (processRequest useAsync sess window nowS nowNs).updateCalled = true ∧
    (processRequest useAsync sess window nowS nowNs).stored =
      (ForwardMessage sess window nowS nowNs).2.2.1 ∧
    (useAsync = false →
      (processRequest useAsync sess window nowS nowNs).ctxSession =
        some (processRequest useAsync sess window nowS nowNs).stored) := by
  rcases hF : ForwardMessage sess window nowS nowNs with ⟨fwd, reason, s', w'⟩
  cases useAsync <;> cases fwd <;>
    by_cases h1 : reason = 1 <;> by_cases h2 : reason = 2 <;>
    simp [processRequest, hF, h1, h2]

/-- C2: six sequential requests under `Rate=3, Per=60` (the session of
`createThrottledSession`) give `200,200,200,429,429,429`, each denial
carrying the error body "Rate limit exceeded"; and in general, with rate
limiting enabled, a request whose post-insert rolling-window count exceeds
`Rate` is denied 429 with that body, while one whose count is at most
`Rate` — the `count == Rate` boundary included — passes the rate check and
is admitted whenever quota admits it. -/
theorem rate_limit_three_per_sixty (sess : SessionState) (w : List Int)
    (nowS nowNs : Int) (u : Bool) :
    runRequests false throttledSession [] [0, 1, 2, 3, 4, 5] =
      [(200, none), (200, none), (200, none),
       (429, some "Rate limit exceeded"), (429, some "Rate limit exceeded"),
       (429, some "Rate limit exceeded")] ∧
    (0 < sess.Rate → 0 < sess.Per →
      (sess.Rate < ((setRollingWindow w sess.Per nowNs).2 : Int) →
        (processRequest u sess w nowS nowNs).status = 429 ∧
        (processRequest u sess w nowS nowNs).errMsg =
          some "Rate limit exceeded") ∧
      (((setRollingWindow w sess.Per nowNs).2 : Int) ≤ sess.Rate →
        (quotaStep sess nowS).1 = true →
        (processRequest u sess w nowS nowNs).status = 200 ∧
        (processRequest u sess w nowS nowNs).errMsg = none)) := by
  constructor
  · decide
  · intro hR hP
    have hcond : ¬(sess.Rate ≤ 0 ∨ sess.Per ≤ 0) := by
      push_neg
      exact ⟨hR, hP⟩
    rcases hW : setRollingWindow w sess.Per nowNs with ⟨w', cnt⟩
    rcases hQ : quotaStep sess nowS with ⟨qf, qr, qs⟩
    constructor
    · intro hlt
      simp only at hlt
      simp [processRequest, ForwardMessage, hcond, hW, hlt]
    · intro hle hq
      simp only at hle hq
      subst hq
      have hnlt : ¬(sess.Rate < (cnt : Int)) := not_lt.mpr hle
      simp [processRequest, ForwardMessage, hcond, hW, hQ, hnlt]

theorem rate_limit_three_per_sixty_witness :
    0 < throttledSession.Rate ∧
    (processRequest false throttledSession [] 0 0).status = 200 ∧
    (processRequest false throttledSession [] 0 0).errMsg = none :=
  ⟨by decide,
   ((rate_limit_three_per_sixty throttledSession [] 0 0 false).2
     (by decide) (by decide)).2 (by decide) (by decide)⟩

/-- C3: three sequential requests under `QuotaMax=2, QuotaRemaining=2`
with the renewal in the future (the session of `createQuotaSession`) give
`200,200,403` with the denial body "Quota exceeded"; with a positive
`QuotaMax` the quota step fails with reason 2 exactly when the remaining
quota has reached 0 and no renewal is due; and the middleware maps a
reason-2 denial to status 403 with error body "Quota exceeded". -/
theorem quota_two_then_denied (sess : SessionState) (nowS : Int) (u : Bool)
    (w : List Int) (nowNs : Int) :
    runRequests false quotaSession [] [0, 0, 0] =
      [(200, none), (200, none), (403, some "Quota exceeded")] ∧
    (0 < sess.QuotaMax →
      (((quotaStep sess nowS).1 = false ∧ (quotaStep sess nowS).2.1 = 2) ↔
        (sess.QuotaRemaining ≤ 0 ∧ nowS < sess.QuotaRenews))) ∧
    ((ForwardMessage sess w nowS nowNs).1 = false →
      (ForwardMessage sess w nowS nowNs).2.1 = 2 →
      (processRequest u sess w nowS nowNs).status = 403 ∧
      (processRequest u sess w nowS nowNs).errMsg = some "Quota exceeded") := by
  refine ⟨by decide, ?_, ?_⟩
  · intro hmax
    have hnneg : ¬(sess.QuotaMax < 0) := by omega
    unfold quotaStep
    rw [if_neg hnneg]
    by_cases hren : sess.QuotaRenews ≤ nowS
    · rw [if_pos hren]
      simp only
      have : ¬(sess.QuotaMax ≤ 0) := by omega
      rw [if_neg this]
      simp only
      constructor
      · intro h
        exact absurd h.1 (by simp)
      · intro h
        omega
    · rw [if_neg hren]
      by_cases hrem : sess.QuotaRemaining ≤ 0
      · rw [if_pos hrem]
        simp only
        constructor
        · intro _
          exact ⟨hrem, by omega⟩
        · intro _
          simp
      · rw [if_neg hrem]
        simp only
        constructor
        · intro h
          exact absurd h.1 (by simp)
        · intro h
          omega
  · intro hf h2
    rcases hF : ForwardMessage sess w nowS nowNs with ⟨fwd, reason, s', w'⟩
    rw [hF] at hf h2
    simp only at hf h2
    subst hf
    subst h2
    simp [processRequest, hF]

theorem quota_two_then_denied_witness :
    (quotaStep { quotaSession with QuotaRemaining := 0 } 0).1 = false ∧
    (quotaStep { quotaSession with QuotaRemaining := 0 } 0).2.1 = 2 :=
  ((quota_two_then_denied { quotaSession with QuotaRemaining := 0 } 0
      false [] 0).2.1 (by decide)).2 ⟨by decide, by decide⟩

theorem processRequest_persists_session_witness :
    (processRequest false throttledSession [] 0 0).updateCalled = true ∧
    (processRequest false throttledSession [] 0 0).ctxSession =
      some (processRequest false throttledSession [] 0 0).stored :=
  ⟨(processRequest_persists_session false throttledSession [] 0 0).1,
   (processRequest_persists_session false throttledSession [] 0 0).2.2 rfl⟩

theorem signingStringDateOnly_valid (d : List Nat) :
    bytesValid (signingStringDateOnly d) := by
  intro x hx
  unfold signingStringDateOnly at hx
  rcases List.mem_append.mp hx with h | h
  · exact (by decide : bytesValid (strBytes "date:")) x h
  · exact urlQueryEscape_valid d x h

theorem signingStringDateOnly_inj {d d2 : List Nat} (hd : bytesValid d)
    (hd2 : bytesValid d2)
    (h : signingStringDateOnly d = signingStringDateOnly d2) : d = d2 := by
  unfold signingStringDateOnly at h
  exact urlQueryEscape_inj hd hd2 (List.append_cancel_left h)

theorem hmacExpectedSig_inj (mac : List Nat → List Nat → List Nat)
    (hmacValid : ∀ s m, bytesValid (mac s m))
    (hmacInj : ∀ s m s2 m2, bytesValid s → bytesValid m → bytesValid s2 →
      bytesValid m2 → mac s m = mac s2 m2 → s = s2 ∧ m = m2)
    {s m s2 m2 : List Nat} (hs : bytesValid s) (hm : bytesValid m)
    (hs2 : bytesValid s2) (hm2 : bytesValid m2)
    (h : hmacExpectedSig mac s m = hmacExpectedSig mac s2 m2) :
    s = s2 ∧ m = m2 := by
  unfold hmacExpectedSig at h
  have h1 : base64Encode (mac s m) = base64Encode (mac s2 m2) :=
    urlQueryEscape_inj (base64Encode_valid _) (base64Encode_valid _) h
  have h2 : mac s m = mac s2 m2 :=
    base64Encode_inj (hmacValid s m) (hmacValid s2 m2) h1
  exact hmacInj s m s2 m2 hs hm hs2 hm2 h2

theorem sep_append_inj : ∀ (a : List Nat) {b a2 b2 : List Nat},
    10 ∉ a → 10 ∉ a2 → a ++ 10 :: b = a2 ++ 10 :: b2 → a = a2 ∧ b = b2 := by
  intro a
  induction a with
  | nil =>
    intro b a2 b2 _ ha2 h
    cases a2 with
    | nil => simpa using h
    | cons y u =>
      simp only [List.nil_append, List.cons_append, List.cons.injEq] at h
      obtain ⟨h1, -⟩ := h
      subst h1
      exact absurd (List.mem_cons_self _ _) ha2
  | cons x t ih =>
    intro b a2 b2 hxa ha2 h
    cases a2 with
    | nil =>
      simp only [List.cons_append, List.nil_append, List.cons.injEq] at h
      obtain ⟨h1, -⟩ := h
      subst h1
      exact absurd (List.mem_cons_self _ _) hxa
    | cons y u =>
      simp only [List.cons_append, List.cons.injEq] at h
      obtain ⟨hxy, hrest⟩ := h
      subst hxy
      have h1 : 10 ∉ t := fun hm => hxa (List.mem_cons_of_mem _ hm)
      have h2 : 10 ∉ u := fun hm => ha2 (List.mem_cons_of_mem _ hm)
      obtain ⟨ha, hb⟩ := ih h1 h2 hrest
      exact ⟨by rw [ha], hb⟩

theorem macW_valid (s m : List Nat) : bytesValid (macW s m) := by
  intro x hx
  unfold macW at hx
  rcases List.mem_append.mp hx with h | h
  · exact urlQueryEscape_valid s x h
  · rcases List.mem_cons.mp h with h | h
    · omega
    · exact urlQueryEscape_valid m x h

theorem macW_inj (s m s2 m2 : List Nat) (hs : bytesValid s)
    (hm : bytesValid m) (hs2 : bytesValid s2) (hm2 : bytesValid m2)
    (h : macW s m = macW s2 m2) : s = s2 ∧ m = m2 := by
  unfold macW at h
  obtain ⟨h1, h2⟩ := sep_append_inj _ (ten_not_mem_urlQueryEscape s)
    (ten_not_mem_urlQueryEscape s2) h
  exact ⟨urlQueryEscape_inj hs hs2 h1, urlQueryEscape_inj hm hm2 h2⟩

/-- C6: every HMAC authentication failure carries HTTP status 400 (never
401 or 403): the outcome of the HMAC middleware is either success or a
400 failure; in particular a malformed Authorization header — required
fields not all present, or an algorithm other than hmac-sha1 — yields
400 "Header malformed", and a keyId resolving to no session, or to a
session without HMACEnabled, yields 400 "Key not found". -/
theorem hmac_failures_are_400 (mac : List Nat → List Nat → List Nat)
    (sessions : List Nat → Option SessionState)
    (parseDate : List Nat → Option Int) (nowMs skewMs : Int)
    (req : HMACRequest) :
    ((∃ s, hmacProcessRequest mac sessions parseDate nowMs skewMs req =
        .success s) ∨
     (∃ msg, hmacProcessRequest mac sessions parseDate nowMs skewMs req =
        .failure msg 400)) ∧
    (∀ f, req.auth = some f →
      f.keyId = none ∨ f.algorithm = none ∨ f.signature = none →
      hmacProcessRequest mac sessions parseDate nowMs skewMs req =
        .failure "Header malformed" 400) ∧
    (∀ kid alg sig, req.auth = some ⟨some kid, some alg, some sig⟩ →
      alg ≠ strBytes "hmac-sha1" →
      hmacProcessRequest mac sessions parseDate nowMs skewMs req =
        .failure "Header malformed" 400) ∧
    (∀ kid sig,
      req.auth = some ⟨some kid, some (strBytes "hmac-sha1"), some sig⟩ →
      sessions kid = none →
      hmacProcessRequest mac sessions parseDate nowMs skewMs req =
        .failure "Key not found" 400) ∧
    (∀ kid sig sess,
      req.auth = some ⟨some kid, some (strBytes "hmac-sha1"), some sig⟩ →
      sessions kid = some sess → sess.HMACEnabled = false →
      hmacProcessRequest mac sessions parseDate nowMs skewMs req =
        .failure "Key not found" 400) := by
  obtain ⟨auth, d⟩ := req
  refine ⟨?_, ?_, ?_, ?_, ?_⟩
  · cases auth with
    | none => exact Or.inr ⟨_, rfl⟩
    | some f =>
      obtain ⟨ki, al, si⟩ := f
      cases ki with
      | none => cases al <;> cases si <;> exact Or.inr ⟨_, rfl⟩
      | some kid =>
        cases al with
        | none => cases si <;> exact Or.inr ⟨_, rfl⟩
        | some alg =>
          cases si with
          | none => exact Or.inr ⟨_, rfl⟩
          | some sig =>
            simp only [hmacProcessRequest]
            repeat' split
            all_goals first
              | exact Or.inl ⟨_, rfl⟩
              | exact Or.inr ⟨_, rfl⟩
  · rintro ⟨ki, al, si⟩ hauth hnone
    simp only at hauth
    subst hauth
    cases ki <;> cases al <;> cases si <;> first | rfl | simp_all
  · intro kid alg sig hauth hne
    simp only at hauth
    subst hauth
    simp [hmacProcessRequest, hne]
  · intro kid sig hauth hnone
    simp only at hauth
    subst hauth
    simp [hmacProcessRequest, hnone]
  · intro kid sig sess hauth hsess hen
    simp only at hauth
    subst hauth
    simp [hmacProcessRequest, hsess, hen]

theorem hmac_failures_are_400_witness :
    hmacProcessRequest macW (fun _ => none) pdW 0 1000
      ⟨some ⟨some (strBytes "9876"), some (strBytes "hmac-sha1"), some []⟩,
        dW⟩ = .failure "Key not found" 400 :=
  (hmac_failures_are_400 macW (fun _ => none) pdW 0 1000
      ⟨some ⟨some (strBytes "9876"), some (strBytes "hmac-sha1"), some []⟩,
        dW⟩).2.2.2.1 (strBytes "9876") [] rfl rfl

/-- C5: with a well-formed header, a known HMAC-enabled session and a
parseable RFC1123 Date, a request whose date is further from the gateway
clock than `HMACAllowedClockSkew` milliseconds is rejected with
400 "Date skew too large", whatever its signature; a request within the
skew with the correct signature passes. -/
theorem hmac_clock_skew (mac : List Nat → List Nat → List Nat)
    (sessions : List Nat → Option SessionState)
    (parseDate : List Nat → Option Int) (nowMs skewMs : Int)
    (kid sig d : List Nat) (sess : SessionState) (dMs : Int)
    (hsess : sessions kid = some sess) (hen : sess.HMACEnabled = true)
    (hpd : parseDate d = some dMs) :
    (skewMs < |nowMs - dMs| →
      hmacProcessRequest mac sessions parseDate nowMs skewMs
        ⟨some ⟨some kid, some (strBytes "hmac-sha1"), some sig⟩, d⟩ =
        .failure "Date skew too large" 400) ∧
    (|nowMs - dMs| ≤ skewMs →
      sig = hmacExpectedSig mac sess.HmacSecret (signingStringDateOnly d) →
      hmacProcessRequest mac sessions parseDate nowMs skewMs
        ⟨some ⟨some kid, some (strBytes "hmac-sha1"), some sig⟩, d⟩ =
        .success sess) := by
  constructor
  · intro hskew
    simp [hmacProcessRequest, hsess, hen, hpd, hskew]
  · intro hskew hsig
    have hn : ¬(skewMs < |nowMs - dMs|) := not_lt.mpr hskew
    simp [hmacProcessRequest, hsess, hen, hpd, hn, hsig]

theorem hmac_clock_skew_witness :
    hmacProcessRequest macW sessW pdW 2000 1000
      ⟨some ⟨some (strBytes "9876"), some (strBytes "hmac-sha1"), some []⟩,
        dW⟩ = .failure "Date skew too large" 400 :=
  (hmac_clock_skew macW sessW pdW 2000 1000 (strBytes "9876") [] dW
    hmacSession 0 (by decide) rfl rfl).1 (by decide)

/-- C4: over any collision-free MAC primitive with byte-string output
(the spec idealization of HMAC-SHA1), a request whose signature field is
the URL-query-escaped base64 of the MAC of the signing string
`"date:" ++ urlQueryEscape(<Date>)` under the session secret verifies and
proceeds; any other signature fails with 400 "Signature invalid", as does
presenting the original signature with a changed date (hence changed
signing string) or against a changed secret. -/
theorem hmac_canonicalization_roundtrip
    (mac : List Nat → List Nat → List Nat)
    (hmacValid : ∀ s m, bytesValid (mac s m))
    (hmacInj : ∀ s m s2 m2, bytesValid s → bytesValid m → bytesValid s2 →
      bytesValid m2 → mac s m = mac s2 m2 → s = s2 ∧ m = m2)
    (sessions : List Nat → Option SessionState)
    (parseDate : List Nat → Option Int) (nowMs skewMs : Int)
    (kid d : List Nat) (sess : SessionState) (dMs : Int)
    (hd : bytesValid d) (hsec : bytesValid sess.HmacSecret)
    (hsess : sessions kid = some sess) (hen : sess.HMACEnabled = true)
    (hpd : parseDate d = some dMs) (hskew : |nowMs - dMs| ≤ skewMs) :
    (hmacProcessRequest mac sessions parseDate nowMs skewMs
      ⟨some ⟨some kid, some (strBytes "hmac-sha1"),
        some (hmacExpectedSig mac sess.HmacSecret
          (signingStringDateOnly d))⟩, d⟩ = .success sess) ∧
    (∀ sig2, sig2 ≠ hmacExpectedSig mac sess.HmacSecret
        (signingStringDateOnly d) →
      hmacProcessRequest mac sessions parseDate nowMs skewMs
        ⟨some ⟨some kid, some (strBytes "hmac-sha1"), some sig2⟩, d⟩ =
        .failure "Signature invalid" 400) ∧
    (∀ d2 dMs2, bytesValid d2 → d2 ≠ d → parseDate d2 = some dMs2 →
      |nowMs - dMs2| ≤ skewMs →
      hmacProcessRequest mac sessions parseDate nowMs skewMs
        ⟨some ⟨some kid, some (strBytes "hmac-sha1"),
          some (hmacExpectedSig mac sess.HmacSecret
            (signingStringDateOnly d))⟩, d2⟩ =
        .failure "Signature invalid" 400) ∧
    (∀ (sessions2 : List Nat → Option SessionState) (sess2 : SessionState),
      sessions2 kid = some sess2 → sess2.HMACEnabled = true →
      bytesValid sess2.HmacSecret → sess2.HmacSecret ≠ sess.HmacSecret →
      hmacProcessRequest mac sessions2 parseDate nowMs skewMs
        ⟨some ⟨some kid, some (strBytes "hmac-sha1"),
          some (hmacExpectedSig mac sess.HmacSecret
            (signingStringDateOnly d))⟩, d⟩ =
        .failure "Signature invalid" 400) := by
  have hn : ¬(skewMs < |nowMs - dMs|) := not_lt.mpr hskew
  refine ⟨?_, ?_, ?_, ?_⟩
  · simp [hmacProcessRequest, hsess, hen, hpd, hn]
  · intro sig2 hne
    simp [hmacProcessRequest, hsess, hen, hpd, hn, hne]
  · intro d2 dMs2 hd2 hdne hpd2 hskew2
    have hn2 : ¬(skewMs < |nowMs - dMs2|) := not_lt.mpr hskew2
    have hne : hmacExpectedSig mac sess.HmacSecret (signingStringDateOnly d) ≠
        hmacExpectedSig mac sess.HmacSecret (signingStringDateOnly d2) := by
      intro he
      obtain ⟨-, hm⟩ := hmacExpectedSig_inj mac hmacValid hmacInj hsec
        (signingStringDateOnly_valid d) hsec (signingStringDateOnly_valid d2)
        he
      exact hdne (signingStringDateOnly_inj hd hd2 hm).symm
    simp [hmacProcessRequest, hsess, hen, hpd2, hn2, hne]
  · intro sessions2 sess2 hsess2 hen2 hsec2 hnesec
    have hne : hmacExpectedSig mac sess.HmacSecret (signingStringDateOnly d) ≠
        hmacExpectedSig mac sess2.HmacSecret (signingStringDateOnly d) := by
      intro he
      obtain ⟨hsEq, -⟩ := hmacExpectedSig_inj mac hmacValid hmacInj hsec
        (signingStringDateOnly_valid d) hsec2 (signingStringDateOnly_valid d)
        he
      exact hnesec hsEq.symm
    simp [hmacProcessRequest, hsess2, hen2, hpd, hn, hne]

theorem hmac_canonicalization_roundtrip_witness :
    hmacProcessRequest macW sessW pdW 0 1000
      ⟨some ⟨some (strBytes "9876"), some (strBytes "hmac-sha1"),
        some (hmacExpectedSig macW (strBytes "9879879878787878")
          (signingStringDateOnly dW))⟩, dW⟩ = .success hmacSession :=
  (hmac_canonicalization_roundtrip macW macW_valid macW_inj sessW pdW 0 1000
    (strBytes "9876") dW hmacSession 0 (by decide) (by decide) (by decide)
    rfl rfl (by decide)).1


end Tyk
